import Mathlib

/-!
Shallow embedding of the core of the `orb3` object-relational mapping layer:
`src/orb/core/query.py`, `src/orb/core/context.py` and `src/orb/core/model.py`.

Python dictionaries with string keys are embedded as association lists
(`Smap`), Python scalar values as the inductive `Val` (with `Val.none` for
Python `None`).  Python `dict.get(k)` returns `None` on a miss, which the
embedding renders as `pyGet` (total, `.none` default) next to the partial
`lookupL`.  Exceptions are embedded with `Except PyErr`.
-/

/-- Python scalar values used by the claims: `None`, strings, integers and
booleans.  Object identity (`is`) coincides with structural equality on these
(interned) primitives, which is how the embedding reads `is`/`is not`. -/
inductive Val where
  | none
  | str (s : String)
  | int (n : Int)
  | bool (b : Bool)
deriving DecidableEq, Repr

/-- Exceptions raised by the embedded code. -/
inductive PyErr where
  | keyError (k : String)
  | readOnly (model : String)
  | runtimeError (msg : String)
  | typeError
deriving DecidableEq, Repr

instance {ε α : Type} [DecidableEq ε] [DecidableEq α] :
    DecidableEq (Except ε α)
  | .ok a, .ok b => if h : a = b then .isTrue (by rw [h]) else .isFalse (by simp [h])
  | .error a, .error b => if h : a = b then .isTrue (by rw [h]) else .isFalse (by simp [h])
  | .ok _, .error _ => .isFalse (by simp)
  | .error _, .ok _ => .isFalse (by simp)

/-- A Python `dict` with string keys, as an association list (unique keys). -/
abbrev Smap := List (String × Val)

/-- Dictionary lookup: `d[k]` / `d.get(k)` without default. -/
def lookupL {α : Type} : List (String × α) → String → Option α
  | [], _ => Option.none
  | (k, v) :: rest, key => if k = key then some v else lookupL rest key

/-- Python `d.get(k)`: `None` when the key is absent. -/
def pyGet (m : Smap) (k : String) : Val :=
  (lookupL m k).getD .none

/-- Dictionary assignment `d[k] = v` (replaces any existing binding). -/
def setk {α : Type} (m : List (String × α)) (k : String) (v : α) :
    List (String × α) :=
  (m.filter (fun p => p.1 ≠ k)) ++ [(k, v)]

/-- Dictionary deletion, as performed by a successful `d.pop(k)`. -/
def eraseK {α : Type} (m : List (String × α)) (k : String) :
    List (String × α) :=
  m.filter (fun p => p.1 ≠ k)

/-- Python `d.update(other)`: fold every binding of `other` into `d`. -/
def updateAll {α : Type} (m other : List (String × α)) : List (String × α) :=
  other.foldl (fun acc p => setk acc p.1 p.2) m

/-! ### `src/orb/core/query.py` -/

/-- `QueryOp` (query.py, lines 7-11). -/
inductive QueryOp where
  | Is
  | IsNot
deriving DecidableEq, Repr

/-- `Query.__init__` (query.py, lines 19-29): a single comparison predicate.
The constructor defaults are `name=''`, `model=''`, `op=Is`, `value=None`. -/
structure Query where
  name : String
  model : String
  op : QueryOp
  value : Val
deriving DecidableEq, Repr

/-- The default node `Q()`. -/
def Query.null : Query := ⟨"", "", .Is, .none⟩

/-- `Query.is_null` (query.py, lines 65-68): `not (self.name or self.model)`. -/
def Query.is_null (q : Query) : Bool :=
  q.name = "" && q.model = ""

/-- The keyword arguments that `Query.clone` may receive; an absent key is
`none` (`__eq__`/`__ne__` pass only `op` and `value`). -/
structure CloneValues where
  name : Option String := Option.none
  model : Option String := Option.none
  op : Option QueryOp := Option.none
  value : Option Val := Option.none

/-- `Query.clone` (query.py, lines 55-63).  The `defaults` dictionary holds
only `name`, `op` and `value` — it does *not* carry `self.model` — so after
`defaults.update(values)` the constructor call `type(self)(**defaults)`
receives `model` only when explicitly passed, and otherwise falls back to the
constructor default `''`. -/
def Query.clone (q : Query) (values : CloneValues) : Query :=
  { name := values.name.getD q.name
    model := values.model.getD ""
    op := values.op.getD q.op
    value := values.value.getD q.value }

/-- `Query.__eq__` (query.py, lines 47-49):
`self.clone({'op': QueryOp.Is, 'value': other})`. -/
def Query.eqOp (q : Query) (other : Val) : Query :=
  q.clone { op := some .Is, value := some other }

/-- `Query.__ne__` (query.py, lines 51-53):
`self.clone({'op': QueryOp.IsNot, 'value': other})`. -/
def Query.neOp (q : Query) (other : Val) : Query :=
  q.clone { op := some .IsNot, value := some other }

/-- The operator of a query group (`QueryGroupOp` of `query_group.py`, which
is not among the sources; the spec names its members And and Or). -/
inductive GroupOp where
  | And
  | Or
deriving DecidableEq, Repr

/-- A predicate tree: a Query Node or a Query Group (spec section 3).  A
group holds an operator and an ordered list of members. -/
inductive QTree where
  | node (q : Query)
  | group (op : GroupOp) (members : List QTree)

mutual

/-- Structural (boolean) equality of predicate trees. -/
def QTree.beq : QTree → QTree → Bool
  | .node q1, .node q2 => decide (q1 = q2)
  | .group o1 ms1, .group o2 ms2 => decide (o1 = o2) && QTree.beqList ms1 ms2
  | _, _ => false

/-- Structural equality of member lists. -/
def QTree.beqList : List QTree → List QTree → Bool
  | [], [] => true
  | a :: as, b :: bs => QTree.beq a b && QTree.beqList as bs
  | _, _ => false

end

mutual

def QTree.eq_of_beq : {a b : QTree} → QTree.beq a b = true → a = b
  | .node q1, .node q2, h => by
    simp only [QTree.beq, decide_eq_true_eq] at h
    exact congrArg QTree.node h
  | .node _, .group _ _, h => by simp [QTree.beq] at h
  | .group _ _, .node _, h => by simp [QTree.beq] at h
  | .group o1 ms1, .group o2 ms2, h => by
    simp only [QTree.beq, Bool.and_eq_true, decide_eq_true_eq] at h
    rw [h.1, QTree.eqList_of_beqList h.2]

def QTree.eqList_of_beqList :
    {as bs : List QTree} → QTree.beqList as bs = true → as = bs
  | [], [], _ => rfl
  | [], _ :: _, h => by simp [QTree.beqList] at h
  | _ :: _, [], h => by simp [QTree.beqList] at h
  | a :: as, b :: bs, h => by
    simp only [QTree.beqList, Bool.and_eq_true] at h
    rw [QTree.eq_of_beq h.1, QTree.eqList_of_beqList h.2]

end

mutual

def QTree.beq_refl : (a : QTree) → QTree.beq a a = true
  | .node q => by simp [QTree.beq]
  | .group o ms => by simp [QTree.beq, QTree.beqList_refl ms]

def QTree.beqList_refl : (as : List QTree) → QTree.beqList as as = true
  | [] => rfl
  | a :: as => by simp [QTree.beqList, QTree.beq_refl a, QTree.beqList_refl as]

end

instance : DecidableEq QTree := fun a b =>
  if h : QTree.beq a b = true then .isTrue (QTree.eq_of_beq h)
  else .isFalse (fun he => h (he ▸ QTree.beq_refl a))

/-- `is_null` over predicate trees: a node is null iff its field name and
model scope are empty (query.py, lines 65-68); per spec section 4.1 a
predicate is null iff it "carries no field reference and no nested members",
so a group is null iff it has no members. -/
def QTree.is_null : QTree → Bool
  | .node q => q.is_null
  | .group _ ms => ms.isEmpty

/-- Members contributed by one operand when a group with operator `op` is
formed: a group with the same operator contributes its member list
(flattening, spec section 3: "chaining same-operator combinations flattens
into one Group's member list rather than nesting"), anything else
contributes itself. -/
def QTree.flat (op : GroupOp) : QTree → List QTree
  | .group op2 ms => if op2 = op then ms else [.group op2 ms]
  | t => [t]

/-- Modelled from the spec: `make_query_group` is defined in
`query_group.py`, which is not among the sources (query.py imports it in
`Query.__and__`/`Query.__or__`, lines 31-45).  Per spec section 4.1,
"combining with a null predicate on either side must yield the non-null side
unchanged"; `None` operands (as passed by `_merge_query` and `Model.fetch`)
likewise leave the other side unchanged; otherwise the two predicates form a
group with the given operator, flattening same-operator members
(spec section 3). -/
def make_query_group (a : QTree) (b : Option QTree) (op : GroupOp) : QTree :=
  match b with
  | Option.none => a
  | some b =>
    if b.is_null then a
    else if a.is_null then b
    else .group op (a.flat op ++ b.flat op)

/-- `Query.__and__` (query.py, lines 31-37). -/
def QTree.andOp (a : QTree) (b : Option QTree) : QTree :=
  make_query_group a b .And

/-- `Query.__or__` (query.py, lines 39-45). -/
def QTree.orOp (a : QTree) (b : Option QTree) : QTree :=
  make_query_group a b .Or

mutual

/-- Truth value of a predicate tree under an environment assigning a truth
value to each atomic comparison.  A null predicate filters nothing, so it
evaluates to `true` (spec section 4.1: backends treat a null predicate as
"no filter"); an `And` group is the conjunction of its members, an `Or`
group the disjunction. -/
def QTree.evalQ (env : Query → Bool) : QTree → Bool
  | .node q => if q.is_null then true else env q
  | .group op ms =>
    if ms.isEmpty then true
    else match op with
      | .And => QTree.evalAll env ms
      | .Or => QTree.evalAny env ms

def QTree.evalAll (env : Query → Bool) : List QTree → Bool
  | [] => true
  | t :: ts => QTree.evalQ env t && QTree.evalAll env ts

def QTree.evalAny (env : Query → Bool) : List QTree → Bool
  | [] => false
  | t :: ts => QTree.evalQ env t || QTree.evalAny env ts

end

/-! ### `src/orb/core/context.py` -/

/-- `Ordering` (context.py, lines 7-11); primed to avoid the Lean core name. -/
inductive Ordering' where
  | Asc
  | Desc
deriving DecidableEq, Repr

/-- `ReturnType` (context.py, lines 14-18). -/
inductive ReturnType where
  | Data
  | Records
deriving DecidableEq, Repr

/-- `Context` (context.py, lines 21-53).  Field names follow the source
(`namespace` and `where` are Lean keywords, hence `nspace` and `where_`);
`_limit` and `_start` hold the raw values behind the `limit`/`start`
properties.  `Context.__init__` stores every argument verbatim except
`scope`, which is normalised by `scope or {}`. -/
structure Context where
  distinct : Option (List String)
  fields : Option (List String)
  locale : Option String
  _limit : Option Int
  nspace : Option String
  order : Option (List (String × Ordering'))
  page : Option Int
  page_size : Option Int
  returning : ReturnType
  scope : Smap
  _start : Option Int
  timezone : Option String
  where_ : Option QTree
deriving DecidableEq

/-- `Context.__init__` (context.py, lines 24-53), with the constructor's
keyword defaults (`returning=ReturnType.Records`, all others `None`) and the
`self.scope = scope or {}` normalisation. -/
def Context.init
    (distinct : Option (List String))
    (fields : Option (List String))
    (locale : Option String)
    (limit : Option Int)
    (nspace : Option String)
    (order : Option (List (String × Ordering')))
    (page : Option Int)
    (page_size : Option Int)
    (returning : ReturnType)
    (scope : Option Smap)
    (start : Option Int)
    (timezone : Option String)
    (where_ : Option QTree) : Context :=
  { distinct := distinct
    fields := fields
    locale := locale
    _limit := limit
    nspace := nspace
    order := order
    page := page
    page_size := page_size
    returning := returning
    scope := scope.getD []
    _start := start
    timezone := timezone
    where_ := where_ }

/-- `Context.get_limit` (context.py, lines 55-57): `page_size or _limit`.
(A `page_size` of `0` is falsy in Python and falls through to `_limit`.) -/
def Context.get_limit (c : Context) : Option Int :=
  match c.page_size with
  | some n => if n = 0 then c._limit else some n
  | Option.none => c._limit

/-- `Context.get_start` (context.py, lines 59-63):
`(page - 1) * (limit or 0)` when `page` is truthy, else `_start`. -/
def Context.get_start (c : Context) : Option Int :=
  match c.page with
  | some p =>
    if p = 0 then c._start
    else some ((p - 1) * ((c.get_limit).getD 0))
  | Option.none => c._start

/-- A value passed as a keyword option to `make_context`.  Python kwargs are
untyped; the embedding enumerates the shapes the source consumes.  `vNone`
is an explicit `None`; `vStore` stands for the (external) Store object that
`Model` operations inject under the `'store'` key; `vOther` covers every
other object. -/
inductive OptVal where
  | vNone
  | vStr (s : String)
  | vStrList (l : List String)
  | vInt (n : Int)
  | vOrder (o : List (String × Ordering'))
  | vRet (r : ReturnType)
  | vScope (s : Smap)
  | vQuery (q : Option QTree)
  | vCtx (c : Context)
  | vStore
  | vOther (tag : String)
deriving DecidableEq

/-- The `**options` keyword dictionary: a lookup from key to value. -/
def Options : Type := String → Option OptVal

/-- The empty keyword dictionary. -/
def emptyOpts : Options := fun _ => Option.none

/-- Add (or overwrite) one keyword argument. -/
def setOpt (o : Options) (k : String) (v : OptVal) : Options :=
  fun k2 => if k2 = k then some v else o k2

/-- Python `options.setdefault(k, v)`. -/
def setdefaultOpt (o : Options) (k : String) (v : OptVal) : Options :=
  fun k2 => if k2 = k then some ((o k).getD v) else o k2

/-- `options.get('context')` (context.py, line 215); the source uses the
value as a `Context`, so other shapes are outside the typed embedding. -/
def getBaseContext (o : Options) : Option Context :=
  match o "context" with
  | some (.vCtx c) => some c
  | _ => Option.none

/-- `_merge_distinct` (context.py, lines 77-86): an explicit value (a comma
separated string is split) overrides, else inherit from the base context.
The source validates nothing; option shapes it never produces map to
`none`. -/
def _merge_distinct (options : Options) (base_context : Option Context) :
    Option (List String) :=
  match options "distinct" with
  | Option.none =>
    match base_context with
    | some b => b.distinct
    | Option.none => Option.none
  | some (.vStr s) => some (s.splitOn ",")
  | some (.vStrList l) => some l
  | some _ => Option.none

/-- `_merge_fields` (context.py, lines 89-102): an explicit value (a comma
separated string is split) overrides, and when both the explicit list and
the base context's `fields` are truthy, base fields not already present are
appended. -/
def _merge_fields (options : Options) (base_context : Option Context) :
    Option (List String) :=
  match options "fields" with
  | Option.none =>
    match base_context with
    | some b => b.fields
    | Option.none => Option.none
  | some v =>
    let fields : Option (List String) :=
      match v with
      | .vStr s => some (s.splitOn ",")
      | .vStrList l => some l
      | _ => Option.none
    match fields, base_context with
    | some fs, some b =>
      match b.fields with
      | some bfs =>
        if fs ≠ [] ∧ bfs ≠ [] then
          some (fs ++ bfs.filter (fun f => !fs.contains f))
        else some fs
      | Option.none => some fs
    | _, _ => fields

/-- `_merge_limit` (context.py, lines 105-110): explicit value, else the
base context's raw `_limit`. -/
def _merge_limit (options : Options) (base_context : Option Context) :
    Option Int :=
  match options "limit" with
  | Option.none =>
    match base_context with
    | some b => b._limit
    | Option.none => Option.none
  | some (.vInt n) => some n
  | some _ => Option.none

/-- `_merge_locale` (context.py, lines 113-118). -/
def _merge_locale (options : Options) (base_context : Option Context) :
    Option String :=
  match options "locale" with
  | Option.none =>
    match base_context with
    | some b => b.locale
    | Option.none => Option.none
  | some (.vStr s) => some s
  | some _ => Option.none

/-- `_merge_namespace` (context.py, lines 121-126). -/
def _merge_namespace (options : Options) (base_context : Option Context) :
    Option String :=
  match options "namespace" with
  | Option.none =>
    match base_context with
    | some b => b.nspace
    | Option.none => Option.none
  | some (.vStr s) => some s
  | some _ => Option.none

/-- Python `part.strip('+-')`: remove every leading and trailing `+`/`-`. -/
def stripPlusMinus (s : String) : String :=
  let pm : Char → Bool := fun c => c = '+' || c = '-'
  String.mk (((s.toList.dropWhile pm).reverse.dropWhile pm).reverse)

/-- `_merge_order` (context.py, lines 129-143): an explicit string is parsed
as comma separated tokens, each optionally prefixed `-` for descending
(anything else, including a `+` prefix, is ascending); an explicit list is
taken as-is; else inherit from the base context. -/
def _merge_order (options : Options) (base_context : Option Context) :
    Option (List (String × Ordering')) :=
  match options "order" with
  | Option.none =>
    match base_context with
    | some b => b.order
    | Option.none => Option.none
  | some (.vStr s) =>
    some ((s.splitOn ",").map (fun part =>
      (stripPlusMinus part,
        if part.startsWith "-" then Ordering'.Desc else Ordering'.Asc)))
  | some (.vOrder o) => some o
  | some _ => Option.none

/-- `_merge_page` (context.py, lines 146-151). -/
def _merge_page (options : Options) (base_context : Option Context) :
    Option Int :=
  match options "page" with
  | Option.none =>
    match base_context with
    | some b => b.page
    | Option.none => Option.none
  | some (.vInt n) => some n
  | some _ => Option.none

/-- `_merge_page_size` (context.py, lines 154-159). -/
def _merge_page_size (options : Options) (base_context : Option Context) :
    Option Int :=
  match options "page_size" with
  | Option.none =>
    match base_context with
    | some b => b.page_size
    | Option.none => Option.none
  | some (.vInt n) => some n
  | some _ => Option.none

/-- `_merge_query` (context.py, lines 162-171): with no explicit `where`,
inherit the base context's predicate as-is; an explicit non-`None` predicate
is conjoined (`query &= base_context.where`, i.e.
`make_query_group query base.where And`) whenever a base context is present;
an explicit `None` stays `None`. -/
def _merge_query (options : Options) (base_context : Option Context) :
    Option QTree :=
  match options "where" with
  | Option.none =>
    match base_context with
    | some b => b.where_
    | Option.none => Option.none
  | some (.vQuery q) =>
    match q, base_context with
    | some q, some b => some (make_query_group q b.where_ .And)
    | q, _ => q
  | some _ => Option.none

/-- `_merge_returning` (context.py, lines 174-179): explicit value, else the
base context's, else `Records`. -/
def _merge_returning (options : Options) (base_context : Option Context) :
    ReturnType :=
  match options "returning" with
  | Option.none =>
    match base_context with
    | some b => b.returning
    | Option.none => .Records
  | some (.vRet r) => r
  | some _ => .Records

/-- `_merge_scope` (context.py, lines 182-194): a truthy explicit scope is
layered on top of the base context's scope (explicit keys win); a falsy
explicit scope is returned as-is; else inherit from the base context. -/
def _merge_scope (options : Options) (base_context : Option Context) :
    Option Smap :=
  match options "scope" with
  | Option.none =>
    match base_context with
    | some b => some b.scope
    | Option.none => Option.none
  | some (.vScope s) =>
    match base_context with
    | some b => if s ≠ [] then some (updateAll b.scope s) else some s
    | Option.none => some s
  | some _ => Option.none

/-- `_merge_start` (context.py, lines 197-202): explicit value, else the
base context's raw `_start`. -/
def _merge_start (options : Options) (base_context : Option Context) :
    Option Int :=
  match options "start" with
  | Option.none =>
    match base_context with
    | some b => b._start
    | Option.none => Option.none
  | some (.vInt n) => some n
  | some _ => Option.none

/-- `_merge_timezone` (context.py, lines 205-210). -/
def _merge_timezone (options : Options) (base_context : Option Context) :
    Option String :=
  match options "timezone" with
  | Option.none =>
    match base_context with
    | some b => b.timezone
    | Option.none => Option.none
  | some (.vStr s) => some s
  | some _ => Option.none

/-- `make_context` (context.py, lines 213-230): read the base context from
the `'context'` option and build a `Context` from the thirteen per-key merge
rules.  No other option key is ever consulted. -/
def make_context (options : Options) : Context :=
  let base_context := getBaseContext options
  Context.init
    (_merge_distinct options base_context)
    (_merge_fields options base_context)
    (_merge_locale options base_context)
    (_merge_limit options base_context)
    (_merge_namespace options base_context)
    (_merge_order options base_context)
    (_merge_page options base_context)
    (_merge_page_size options base_context)
    (_merge_returning options base_context)
    (_merge_scope options base_context)
    (_merge_start options base_context)
    (_merge_timezone options base_context)
    (_merge_query options base_context)

/-! ### `src/orb/core/model.py`

The schema, its field and collector descriptors, and the Store are external
collaborators (spec section 6); the embedding carries the parts of their
interface that `model.py` consumes.  A declared custom getter/setter or a
collector materialisation is an external call whose effect lives outside
this record; `set` reports such delegations in its result. -/

/-- A field descriptor of the schema contract (spec section 6): a name,
flags, and optionally a custom setter (`field.settermethod`).  (Named
`FieldDesc` here because Mathlib already defines `Field`.) -/
structure FieldDesc where
  name : String
  hasSetter : Bool := false
  virtual : Bool := false
  keyable : Bool := false
deriving DecidableEq, Repr

/-- A collector descriptor of the schema contract: `coll.settermethod` may
be declared. -/
structure Collector where
  hasSetter : Bool := false
deriving DecidableEq, Repr

/-- The schema contract consumed by `model.py` (spec section 6). -/
structure Schema where
  fields : List (String × FieldDesc)
  collectors : List (String × Collector)
  key_fields : List FieldDesc
  default_values : Smap
deriving DecidableEq, Repr

/-- Class-level data of a model type: `__name__`, `__schema__`,
`__view__` (model.py, lines 12-18; `__store__` is the external Store). -/
structure ModelCls where
  name : String
  schema : Schema
  view : Bool
deriving DecidableEq, Repr

/-- The mutable state of a model instance: `self.__state` (baseline),
`self.__changes` (pending), `self.__collections` (stashed raw collection
values; materialised collection objects are external), and `self.context`. -/
structure PModel where
  state : Smap
  changes : Smap
  collections : Smap
  ctx : Context
deriving DecidableEq

/-- `Model._parse_items` (model.py, lines 50-69): split an input dictionary
into schema fields (dropping Virtual ones) and collector entries; a key that
is neither a field nor a collector raises `KeyError` at
`self.__schema__.collectors[key]`.  A collector entry's value is stashed
raw; its materialisation through `collector.get_collection` is external. -/
def _parse_items (sch : Schema) (values : Smap) : Except PyErr (Smap × Smap) :=
  if values = [] then .ok ([], [])
  else
    values.foldlM
      (fun (acc : Smap × Smap) kv =>
        match lookupL sch.fields kv.1 with
        | some field =>
          if !field.virtual then .ok (acc.1 ++ [kv], acc.2) else .ok acc
        | Option.none =>
          match lookupL sch.collectors kv.1 with
          | some _ => .ok (acc.1, acc.2 ++ [kv])
          | Option.none => .error (.keyError kv.1))
      ([], [])

/-- `Model.__init__` (model.py, lines 20-48): inject the class store under
the `'store'` option key via `setdefault`, build `self.context` through
`make_context`, then apply the base `state` (on top of the schema's default
values) and the override `values` (which become pending changes);
collections from both are stashed. -/
def Model.init (cls : ModelCls) (values state : Smap) (opts : Options) :
    Except PyErr PModel := do
  let opts := setdefaultOpt opts "store" .vStore
  let ctx := make_context opts
  let (stateFields, stateColls) ← _parse_items cls.schema state
  let st := updateAll (updateAll [] cls.schema.default_values) stateFields
  let (valueFields, valueColls) ← _parse_items cls.schema values
  .ok { state := st
        changes := updateAll [] valueFields
        collections := updateAll stateColls valueColls
        ctx := ctx }

/-- `Model.mark_loaded` (model.py, lines 159-162):
`self.__state.update(self.__changes); self.__changes.clear()`. -/
def Model.mark_loaded (m : PModel) : PModel :=
  { m with state := updateAll m.state m.changes, changes := [] }

/-- `Model.reset` (model.py, lines 164-166): `self.__changes.clear()`. -/
def Model.reset (m : PModel) : PModel :=
  { m with changes := [] }

/-- The context built by `save` (model.py, lines 173-174):
`context.setdefault('context', self.context); make_context(**context)`. -/
def Model.save_context (m : PModel) (opts : Options) : Context :=
  make_context (setdefaultOpt opts "context" (.vCtx m.ctx))

/-- `Model.save` (model.py, lines 168-179).  The expression
`await self.context.store.save_record(self, save_context)` is an external
Store call (spec section 6), abstracted as the parameter `store_save`; its
exception (`.error`) propagates before any instance state is touched.  On
success the returned authoritative values are folded into the changes and
`mark_loaded` runs.  The result pairs the instance state after the call
with the returned value or the propagated exception. -/
def Model.save (cls : ModelCls) (m : PModel)
    (store_save : Context → Except PyErr Smap) (opts : Options) :
    PModel × Except PyErr Bool :=
  if cls.view then (m, .error (.readOnly cls.name))
  else if m.changes ≠ [] then
    match store_save (Model.save_context m opts) with
    | .error e => (m, .error e)
    | .ok values =>
      let m := { m with changes := updateAll m.changes values }
      (Model.mark_loaded m, .ok true)
  else (m, .ok false)

/-- Helper for `rpartition`: split a character list around its *last* dot,
`none` when there is no dot. -/
def rpartitionCharAux : List Char → Option (List Char × List Char)
  | [] => Option.none
  | c :: rest =>
    match rpartitionCharAux rest with
    | some (b, a) => some (c :: b, a)
    | Option.none => if c = '.' then some ([], rest) else Option.none

/-- Python `key.rpartition('.')`, keeping the first and last components:
`("", s)` when `s` has no dot, else (everything before the last dot,
everything after it). -/
def rpartitionDot (s : String) : String × String :=
  match rpartitionCharAux s.toList with
  | some (b, a) => (String.mk b, String.mk a)
  | Option.none => ("", s)

/-- An external call made (and delegated to) by `Model.set`: a field's
custom setter, a collector's setter, or the forwarding of a dotted path to
the nested record resolved by `self.get(target_key)` (which never touches
this record's `__state`/`__changes`). -/
inductive ExtCall where
  | fieldSetterCall (f : String)
  | collectorSetterCall (f : String)
  | nestedSetCall (target f : String)
deriving DecidableEq, Repr

/-- The outcome of `Model.set`: the record's state afterwards plus the
delegated external call, if any. -/
structure SetResult where
  model : PModel
  ext : Option ExtCall
deriving DecidableEq

/-- `Model.set` (model.py, lines 181-201).  `key.rpartition('.')` splits off
a dotted prefix; with no prefix the field is resolved in the schema: a field
with a custom setter delegates entirely to it; otherwise a value differing
from `self.__state.get(field_key)` is recorded in `__changes`, and an equal
value runs `self.__changes.pop(field_key)` — a `pop` without default, which
raises `KeyError` when no pending entry exists.  An unknown field falls back
to `self.__schema__.collectors[field_key]` (`KeyError` when absent):
`__collections[key]` is assigned the raw value after any collector setter
runs.  A dotted key delegates to the nested record's own `set`. -/
def Model.set (cls : ModelCls) (m : PModel) (key : String) (value : Val) :
    Except PyErr SetResult :=
  let (target_key, field_key) := rpartitionDot key
  if target_key = "" then
    match lookupL cls.schema.fields field_key with
    | some field =>
      if field.hasSetter then
        .ok { model := m, ext := some (.fieldSetterCall field_key) }
      else if pyGet m.state field_key ≠ value then
        .ok { model := { m with changes := setk m.changes field_key value }
              ext := Option.none }
      else
        match lookupL m.changes field_key with
        | some _ =>
          .ok { model := { m with changes := eraseK m.changes field_key }
                ext := Option.none }
        | Option.none => .error (.keyError field_key)
    | Option.none =>
      match lookupL cls.schema.collectors field_key with
      | some coll =>
        .ok { model := { m with collections := setk m.collections key value }
              ext := if coll.hasSetter
                then some (.collectorSetterCall field_key) else Option.none }
      | Option.none => .error (.keyError field_key)
  else
    .ok { model := m, ext := some (.nestedSetCall target_key field_key) }

/-- `Model.update` (model.py, lines 203-205): apply `set` for every item
(the source gathers the coroutines; each `set` commits its mutation without
suspending, so the net effect is the sequential application; an exception
from one `set` propagates out of the gather). -/
def Model.update (cls : ModelCls) (m : PModel) : Smap → Except PyErr PModel
  | [] => .ok m
  | kv :: rest =>
    match Model.set cls m kv.1 kv.2 with
    | .error e => .error e
    | .ok r => Model.update cls r.model rest

/-- The `key` argument of `Model.fetch`: `type(key) in (list, tuple)`
selects the composite branch, anything else the scalar branch. -/
inductive KeyArg where
  | scalar (v : Val)
  | composite (vs : List Val)
deriving DecidableEq, Repr

/-- The value returned by `Model.fetch`: `None` when the store returns no
row, a typed instance built from the first row (`cls(state=record_data)`,
which is external construction; the row is carried) when `returning` is
`Records`, else the raw row. -/
inductive FetchResult where
  | noRecord
  | record (data : Smap)
  | rawData (data : Smap)
deriving DecidableEq, Repr

/-- The filter-building prelude of `Model.fetch` (model.py, lines 222-238),
starting from the null node `Q()`.  For a composite key whose length
differs from `len(key_fields)` the source raises
`RuntimeError('Invalid key provided.')`; with matching arity it runs
`for i, field in key_fields: ...` — the loop unpacks each element of
`key_fields` as a pair, and a field descriptor is not a pair, so the first
iteration raises `TypeError` (the source lacks `enumerate`); only with no
key fields does the loop body never run.  For a scalar key, the single key
field (when there is exactly one) and every Keyable field are OR-ed in as
equality nodes. -/
def Model.fetch_filter (cls : ModelCls) (key : KeyArg) :
    Except PyErr QTree :=
  let q : QTree := .node Query.null
  match key with
  | .composite vs =>
    if vs.length ≠ cls.schema.key_fields.length then
      .error (.runtimeError "Invalid key provided.")
    else
      match cls.schema.key_fields with
      | [] => .ok q
      | _ :: _ => .error .typeError
  | .scalar v =>
    let q :=
      match cls.schema.key_fields with
      | [kf] => q.orOp (some (.node ((Query.mk kf.name "" .Is .none).eqOp v)))
      | _ => q
    .ok (cls.schema.fields.foldl
      (fun acc p =>
        if p.2.keyable then
          acc.orOp (some (.node ((Query.mk p.2.name "" .Is .none).eqOp v)))
        else acc)
      q)

/-- `Model.fetch` (model.py, lines 217-252).  After the filter prelude, the
options are rewritten: `context['where'] = q & context.get('where')`,
`context['limit'] = 1`, `context.setdefault('store', cls.__store__)`; the
merged context goes to the external Store call
`fetch_context.store.get_records(cls, fetch_context)` (abstracted as
`store_get`); an empty row list (`IndexError` on `records[0]`) yields
`None`, else the first row is returned as an instance or as raw data
according to `fetch_context.returning`. -/
def Model.fetch (cls : ModelCls) (key : KeyArg) (opts : Options)
    (store_get : Context → Except PyErr (List Smap)) :
    Except PyErr FetchResult := do
  let q ← Model.fetch_filter cls key
  let whereOpt : Option QTree :=
    match opts "where" with
    | some (.vQuery w) => w
    | _ => Option.none
  let opts := setOpt opts "where" (.vQuery (some (q.andOp whereOpt)))
  let opts := setOpt opts "limit" (.vInt 1)
  let opts := setdefaultOpt opts "store" .vStore
  let fetch_context := make_context opts
  let records ← store_get fetch_context
  match records with
  | [] => .ok .noRecord
  | r :: _ =>
    if fetch_context.returning = .Records then .ok (.record r)
    else .ok (.rawData r)

/-! ### Concrete fixtures used by the claims -/

/-- The plain `name` field of the spec's change-tracking example. -/
def nameField : FieldDesc := { name := "name" }

/-- A writable model type with the single plain field `name`. -/
def clsUser : ModelCls :=
  { name := "User"
    schema := { fields := [("name", nameField)]
                collectors := []
                key_fields := []
                default_values := [] }
    view := false }

/-- The same schema on a view-backed (read-only) model type. -/
def clsUserView : ModelCls :=
  { name := "UserView"
    schema := clsUser.schema
    view := true }

/-- A model type with the two declared key fields `id` and `code`. -/
def clsPair : ModelCls :=
  { name := "Pair"
    schema := { fields := [("id", { name := "id" }), ("code", { name := "code" })]
                collectors := []
                key_fields := [{ name := "id" }, { name := "code" }]
                default_values := [] }
    view := false }

/-- A loaded record with baseline `{"name": "bob"}` and no pending changes. -/
def mBob : PModel :=
  { state := [("name", .str "bob")]
    changes := []
    collections := []
    ctx := make_context emptyOpts }

/-- A record with one pending change (`name` → `"rob"`). -/
def mDirty : PModel :=
  { mBob with changes := [("name", .str "rob")] }

/-- A Store whose reads return no rows and whose writes return no values. -/
def storeEmpty : Context → Except PyErr (List Smap) := fun _ => .ok []

/-- The record invariant of spec section 3: every field present in
`pending_changes` differs from its `baseline_state` counterpart (the
baseline value being what `self.__state.get(key)` returns, `None` when
absent). -/
def pending_ok (m : PModel) : Bool :=
  m.changes.all (fun p => decide (pyGet m.state p.1 ≠ p.2))

/-! ### Helper lemmas -/

theorem isEmpty_false_of_ne_nil {α : Type} (l : List α) (h : l ≠ []) :
    l.isEmpty = false := by
  cases l with
  | nil => exact absurd rfl h
  | cons a as => rfl

theorem evalQ_of_null (env : Query → Bool) (t : QTree) (h : t.is_null = true) :
    t.evalQ env = true := by
  cases t with
  | node q =>
    simp only [QTree.is_null] at h
    simp [QTree.evalQ, h]
  | group op ms =>
    simp only [QTree.is_null] at h
    simp [QTree.evalQ, h]

theorem evalAll_append (env : Query → Bool) (xs ys : List QTree) :
    QTree.evalAll env (xs ++ ys)
      = (QTree.evalAll env xs && QTree.evalAll env ys) := by
  induction xs with
  | nil => simp [QTree.evalAll]
  | cons t ts ih => simp [QTree.evalAll, ih, Bool.and_assoc]

theorem flat_ne_nil (t : QTree) (op : GroupOp) (h : t.is_null = false) :
    t.flat op ≠ [] := by
  cases t with
  | node q => simp [QTree.flat]
  | group op2 ms =>
    cases ms with
    | nil => simp [QTree.is_null, List.isEmpty] at h
    | cons x xs =>
      simp only [QTree.flat]
      split
      · simp
      · simp

theorem evalAll_flat_and (env : Query → Bool) (t : QTree)
    (h : t.is_null = false) :
    QTree.evalAll env (t.flat .And) = t.evalQ env := by
  cases t with
  | node q => simp [QTree.flat, QTree.evalAll]
  | group op2 ms =>
    have hms : ms.isEmpty = false := by simpa [QTree.is_null] using h
    cases op2 with
    | And => simp [QTree.flat, QTree.evalQ, hms]
    | Or => simp [QTree.flat, QTree.evalAll, QTree.evalQ, hms]

theorem evalQ_and_combine (env : Query → Bool) (a b : QTree) :
    QTree.evalQ env (make_query_group a (some b) .And)
      = (QTree.evalQ env a && QTree.evalQ env b) := by
  simp only [make_query_group]
  by_cases hb : b.is_null = true
  · simp [hb, evalQ_of_null env b hb]
  · rw [Bool.not_eq_true] at hb
    by_cases ha : a.is_null = true
    · simp [ha, hb, evalQ_of_null env a ha]
    · rw [Bool.not_eq_true] at ha
      simp only [ha, hb, Bool.false_eq_true, if_false]
      have hne : (a.flat .And ++ b.flat .And).isEmpty = false := by
        apply isEmpty_false_of_ne_nil
        intro he
        exact flat_ne_nil a .And ha (List.append_eq_nil.mp he).1
      rw [QTree.evalQ]
      simp only [hne, Bool.false_eq_true, if_false]
      rw [evalAll_append, evalAll_flat_and env a ha, evalAll_flat_and env b hb]

theorem pending_ok_iff (m : PModel) :
    pending_ok m = true ↔ ∀ p ∈ m.changes, pyGet m.state p.1 ≠ p.2 := by
  simp [pending_ok, List.all_eq_true]

theorem pending_ok_setk (m : PModel) (k : String) (v : Val)
    (hm : pending_ok m = true) (hk : pyGet m.state k ≠ v) :
    pending_ok { m with changes := setk m.changes k v } = true := by
  rw [pending_ok_iff] at hm ⊢
  intro p hp
  simp only [setk, List.mem_append, List.mem_filter, List.mem_singleton] at hp
  rcases hp with ⟨hp, _⟩ | hp
  · exact hm p hp
  · subst hp; exact hk

theorem pending_ok_eraseK (m : PModel) (k : String)
    (hm : pending_ok m = true) :
    pending_ok { m with changes := eraseK m.changes k } = true := by
  rw [pending_ok_iff] at hm ⊢
  intro p hp
  simp only [eraseK, List.mem_filter] at hp
  exact hm p hp.1

theorem set_preserves_pending (cls : ModelCls) (m : PModel) (key : String)
    (value : Val) (r : SetResult) (hm : pending_ok m = true)
    (h : Model.set cls m key value = .ok r) :
    pending_ok r.model = true := by
  unfold Model.set at h
  split at h
  split at h
  · split at h
    · split at h
      · cases h; exact hm
      · split at h
        · cases h; exact pending_ok_setk m _ value hm (by assumption)
        · split at h
          · cases h; exact pending_ok_eraseK m _ hm
          · exact Except.noConfusion h
    · split at h
      · cases h; exact hm
      · exact Except.noConfusion h
  · cases h; exact hm

theorem update_preserves_pending (cls : ModelCls) :
    ∀ (values : Smap) (m m2 : PModel), pending_ok m = true →
      Model.update cls m values = .ok m2 → pending_ok m2 = true
  | [], m, m2, hm, h => by cases h; exact hm
  | kv :: rest, m, m2, hm, h => by
    simp only [Model.update] at h
    cases hs : Model.set cls m kv.1 kv.2 with
    | error e => simp only [hs] at h; exact Except.noConfusion h
    | ok r =>
      simp only [hs] at h
      exact update_preserves_pending cls rest r.model m2
        (set_preserves_pending cls m kv.1 kv.2 r hm hs) h

/-! ### Claims -/

/-- C1.  The composed round trip of the claim holds — `set("name","rob")`
followed by `set("name","bob")` on baseline `{"name":"bob"}` leaves
`pending_changes` empty — but the direct no-op write fails: with no pending
entry for `name`, `set("name","bob")` reaches
`self.__changes.pop(field_key)` (model.py, line 198), a `pop` without
default on a dictionary lacking the key, which raises `KeyError` instead of
leaving `pending_changes` empty. -/
theorem c1_set_baseline_pop_keyerror :
    Model.set clsUser mBob "name" (.str "bob") = .error (.keyError "name") ∧
    ((Model.set clsUser mBob "name" (.str "rob")).bind
        (fun r => Model.set clsUser r.model "name" (.str "bob"))).map
      (fun r => r.model.changes) = .ok [] :=
  ⟨by decide, by decide⟩

/-- C2.  For a non-view record with pending changes, a failing Store call
propagates out of `save` with `__state` and `__changes` untouched, and the
fold of the pending changes into the baseline (`mark_loaded`, after updating
the changes with the Store's returned values) happens exactly on the success
path (model.py, lines 168-179). -/
theorem c2_save_failure_atomicity (cls : ModelCls) (m : PModel)
    (store_save : Context → Except PyErr Smap) (opts : Options)
    (hview : cls.view = false) (hch : m.changes ≠ []) :
    (∀ e, store_save (Model.save_context m opts) = .error e →
      Model.save cls m store_save opts = (m, .error e)) ∧
    (∀ values, store_save (Model.save_context m opts) = .ok values →
      Model.save cls m store_save opts
        = (Model.mark_loaded { m with changes := updateAll m.changes values },
           .ok true)) := by
  constructor
  · intro e he
    simp [Model.save, hview, hch, he]
  · intro values hv
    simp [Model.save, hview, hch, hv]

theorem c2_save_failure_atomicity_witness :
    clsUser.view = false ∧ mDirty.changes ≠ [] ∧
    Model.save clsUser mDirty (fun _ => .error (.runtimeError "backend down"))
        emptyOpts = (mDirty, .error (.runtimeError "backend down")) :=
  ⟨rfl, by decide,
    (c2_save_failure_atomicity clsUser mDirty
      (fun _ => .error (.runtimeError "backend down")) emptyOpts rfl
      (by decide)).1 _ rfl⟩

/-- A Store save call that returns no authoritative values. -/
def storeSaveEmpty : Context → Except PyErr Smap := fun _ => .ok []

/-- C3, counterexample.  A view-backed record with *empty* pending changes:
the claim says `save()` is a no-op returning `false` and does not raise
`ReadOnly`, but `save` checks `type(self).__view__` before the pending-change
check (model.py, lines 170-172) and raises `ReadOnly`. -/
theorem c3_view_empty_save_counterexample :
    mBob.changes = [] ∧
    Model.save clsUserView mBob storeSaveEmpty emptyOpts
      = (mBob, .error (.readOnly "UserView")) ∧
    (Model.save clsUserView mBob storeSaveEmpty emptyOpts).2 ≠ .ok false :=
  ⟨rfl, by decide, by decide⟩

/-- C3, amended.  `save()` checks the view flag first: a view-backed model's
`save` always fails with `ReadOnly`, pending changes or not; for a non-view
record with empty pending changes, `save()` is a no-op returning `false`
without touching the record or the Store (model.py, lines 168-179). -/
theorem c3_save_noop_amended :
    (∀ (cls : ModelCls) (m : PModel)
        (store_save : Context → Except PyErr Smap) (opts : Options),
      cls.view = true →
        Model.save cls m store_save opts = (m, .error (.readOnly cls.name))) ∧
    (∀ (cls : ModelCls) (m : PModel)
        (store_save : Context → Except PyErr Smap) (opts : Options),
      cls.view = false → m.changes = [] →
        Model.save cls m store_save opts = (m, .ok false)) := by
  constructor
  · intro cls m s o hv
    simp [Model.save, hv]
  · intro cls m s o hv hch
    simp [Model.save, hv, hch]

theorem c3_save_noop_amended_witness :
    Model.save clsUserView mBob storeSaveEmpty emptyOpts
      = (mBob, .error (.readOnly "UserView")) ∧
    Model.save clsUser mBob storeSaveEmpty emptyOpts = (mBob, .ok false) :=
  ⟨c3_save_noop_amended.1 clsUserView mBob storeSaveEmpty emptyOpts rfl,
   c3_save_noop_amended.2 clsUser mBob storeSaveEmpty emptyOpts rfl rfl⟩

/-- C6.  The `==`/`!=` helpers build a new node with the operator and value
set and the field name preserved, but `clone`'s `defaults` dictionary omits
`model` (query.py, lines 55-63), so the receiver's model scope `"M"` is
dropped and the produced node has `model = ''`, contradicting the claim
that the model scope is preserved. -/
theorem c6_eq_helper_drops_model :
    (Query.mk "a" "M" .Is .none).eqOp (.int 5)
      = { name := "a", model := "", op := .Is, value := .int 5 } ∧
    ((Query.mk "a" "M" .Is .none).eqOp (.int 5)).model ≠ "M" ∧
    (Query.mk "a" "M" .Is .none).neOp (.int 5)
      = { name := "a", model := "", op := .IsNot, value := .int 5 } :=
  ⟨by decide, by decide, by decide⟩

/-- C7.  `fetch` with a composite key of the declared arity (two values for
the two key fields of `clsPair`) raises `TypeError`: the loop
`for i, field in key_fields` (model.py, line 228) unpacks each field
descriptor as a pair instead of enumerating, so no equality filter is ever
built; an arity mismatch raises the builtin
`RuntimeError('Invalid key provided.')` (line 227). -/
theorem c7_fetch_composite_typeerror :
    Model.fetch clsPair (.composite [.int 1, .int 2]) emptyOpts storeEmpty
      = .error .typeError ∧
    Model.fetch clsPair (.composite [.int 1]) emptyOpts storeEmpty
      = .error (.runtimeError "Invalid key provided.") :=
  ⟨by decide, by decide⟩

/-- C8, counterexample.  Construction copies override `values` into
`pending_changes` without comparing them to the baseline (model.py,
lines 42-47): a record built with `state = {"name": "bob"}` and
`values = {"name": "bob"}` has the pending entry `name → "bob"` equal to
its baseline value, violating the claimed invariant. -/
theorem c8_init_invariant_counterexample :
    (Model.init clsUser [("name", .str "bob")] [("name", .str "bob")]
        emptyOpts).map pending_ok = .ok false :=
  by decide

/-- C8, amended.  The invariant "every pending entry differs from its
baseline value" is preserved by `set` (when it does not raise), by `update`,
and is (re-)established by `mark_loaded` and `reset`; construction with
override `values`, however, records them as pending without comparing to
the baseline, so a constructed record can hold a pending entry equal to its
baseline or default value. -/
theorem c8_invariant_amended :
    (∀ (cls : ModelCls) (m : PModel) (key : String) (value : Val)
        (r : SetResult), pending_ok m = true →
      Model.set cls m key value = .ok r → pending_ok r.model = true) ∧
    (∀ (cls : ModelCls) (m : PModel) (values : Smap) (m2 : PModel),
      pending_ok m = true →
      Model.update cls m values = .ok m2 → pending_ok m2 = true) ∧
    (∀ m : PModel, pending_ok (Model.mark_loaded m) = true) ∧
    (∀ m : PModel, pending_ok (Model.reset m) = true) :=
  ⟨set_preserves_pending,
   fun cls m values m2 => update_preserves_pending cls values m m2,
   fun _ => rfl, fun _ => rfl⟩

theorem c8_invariant_amended_witness :
    pending_ok mBob = true ∧
    Model.set clsUser mBob "name" (.str "rob")
      = .ok { model := mDirty, ext := Option.none } ∧
    pending_ok mDirty = true :=
  ⟨rfl, by decide,
   c8_invariant_amended.1 clsUser mBob "name" (.str "rob")
     { model := mDirty, ext := Option.none } rfl (by decide)⟩

/-- C9.  `make_context()` with no options and no base context yields the
identity context: every optional field unset (`scope`, normalised by
`scope or {}`, is the empty mapping), the derived limit and start also
unset, and `returning = Records` (context.py, lines 24-53 and 213-230). -/
theorem c9_make_context_identity :
    make_context emptyOpts
      = { distinct := Option.none, fields := Option.none
          locale := Option.none, _limit := Option.none
          nspace := Option.none, order := Option.none
          page := Option.none, page_size := Option.none
          returning := .Records, scope := [], _start := Option.none
          timezone := Option.none, where_ := Option.none } ∧
    (make_context emptyOpts).get_limit = Option.none ∧
    (make_context emptyOpts).get_start = Option.none :=
  ⟨by decide, by decide, by decide⟩

/-- The canonical null predicate `Q()`. -/
def nullNode : QTree := .node Query.null

/-- A predicate that is itself null (empty field name and model scope) but
structurally distinct from `Q()` (its operator and value are set). -/
def oddNullNode : QTree := .node ⟨"", "", .IsNot, .int 5⟩

/-- C5, counterexample.  The claim quantifies over *every* predicate `p`,
including predicates that are themselves null.  Combining the null `Q()`
with the null-but-distinct `p = oddNullNode` returns the left null operand,
not `p`: no combinator can return the non-null side when both sides are
null, so the claim fails as stated. -/
theorem c5_null_identity_counterexample :
    QTree.is_null oddNullNode = true ∧
    make_query_group nullNode (some oddNullNode) .And = nullNode ∧
    nullNode ≠ oddNullNode :=
  ⟨by decide, by decide, by decide⟩

/-- C5, amended.  Combining any predicate `p` with a null predicate `n` via
AND or OR returns `p` unchanged whenever `p` is on the left, and whenever
`p` is on the right and is not itself null; when both operands are null the
combination returns the left operand. -/
theorem c5_null_identity_amended (p n : QTree) (op : GroupOp)
    (hn : n.is_null = true) :
    make_query_group p (some n) op = p ∧
    (p.is_null = false → make_query_group n (some p) op = p) := by
  constructor
  · simp [make_query_group, hn]
  · intro hp
    simp [make_query_group, hn, hp]

theorem c5_null_identity_amended_witness :
    make_query_group (.node ⟨"a", "", .Is, .int 1⟩) (some nullNode) .And
      = .node ⟨"a", "", .Is, .int 1⟩ ∧
    make_query_group nullNode (some (.node ⟨"a", "", .Is, .int 1⟩)) .Or
      = .node ⟨"a", "", .Is, .int 1⟩ :=
  ⟨(c5_null_identity_amended (.node ⟨"a", "", .Is, .int 1⟩) nullNode .And
      (by decide)).1,
   (c5_null_identity_amended (.node ⟨"a", "", .Is, .int 1⟩) nullNode .Or
      (by decide)).2 (by decide)⟩

/-- C4.  The `where` merge rule of `make_context` (context.py,
lines 162-171): with both an explicit predicate `q` and a base predicate
`w`, the merged predicate is `make_query_group q (some w) And` — the
explicit side AND-conjoined with the base side, whose truth value under
every environment is the conjunction of the two; with no explicit `where`
the base predicate is inherited as-is; with an explicit predicate and no
base predicate (or no base context) the explicit predicate is used alone. -/
theorem c4_where_merge (opts : Options) (b : Context) (q w : QTree) :
    (opts "context" = some (.vCtx b) →
      opts "where" = some (.vQuery (some q)) → b.where_ = some w →
      (make_context opts).where_ = some (make_query_group q (some w) .And) ∧
      ∀ env, QTree.evalQ env (make_query_group q (some w) .And)
        = (QTree.evalQ env q && QTree.evalQ env w)) ∧
    (opts "context" = some (.vCtx b) → opts "where" = Option.none →
      (make_context opts).where_ = b.where_) ∧
    (opts "context" = some (.vCtx b) →
      opts "where" = some (.vQuery (some q)) → b.where_ = Option.none →
      (make_context opts).where_ = some q) ∧
    (opts "context" = Option.none →
      opts "where" = some (.vQuery (some q)) →
      (make_context opts).where_ = some q) := by
  refine ⟨?_, ?_, ?_, ?_⟩
  · intro hc hw hbw
    constructor
    · simp [make_context, Context.init, getBaseContext, _merge_query,
        hc, hw, hbw]
    · intro env
      exact evalQ_and_combine env q w
  · intro hc hw
    simp [make_context, Context.init, getBaseContext, _merge_query, hc, hw]
  · intro hc hw hbw
    simp [make_context, Context.init, getBaseContext, _merge_query,
      hc, hw, hbw, make_query_group]
  · intro hc hw
    simp [make_context, Context.init, getBaseContext, _merge_query,
      hc, hw, make_query_group]

/-- The base predicate `a == 1` of the spec's example. -/
def wA : QTree := .node ⟨"a", "", .Is, .int 1⟩

/-- The explicit predicate `b == 2` of the spec's example. -/
def qB : QTree := .node ⟨"b", "", .Is, .int 2⟩

/-- A base context carrying `where = (a == 1)`. -/
def baseCtxA : Context :=
  { make_context emptyOpts with where_ := some wA }

/-- The options of the spec's example: explicit `where=(b == 2)` merged over
the base context. -/
def optsC4 : Options :=
  setOpt (setOpt emptyOpts "context" (.vCtx baseCtxA)) "where"
    (.vQuery (some qB))

theorem c4_where_merge_witness :
    (make_context optsC4).where_ = some (.group .And [qB, wA]) ∧
    QTree.evalQ (fun _ => true) (make_query_group qB (some wA) .And)
      = (QTree.evalQ (fun _ => true) qB && QTree.evalQ (fun _ => true) wA) :=
  ⟨by
    have h := ((c4_where_merge optsC4 baseCtxA qB wA).1 rfl rfl rfl).1
    simpa [make_query_group, qB, wA, QTree.is_null, Query.is_null,
      QTree.flat] using h,
   ((c4_where_merge optsC4 baseCtxA qB wA).1 rfl rfl rfl).2 (fun _ => true)⟩

/-- The option keys consulted by `make_context` (context.py, lines 213-230):
the thirteen recognized per-key rules plus the `'context'` base-context
key. -/
def recognized_option_keys : List String :=
  ["distinct", "fields", "locale", "limit", "namespace", "order", "page",
   "page_size", "returning", "scope", "start", "timezone", "where",
   "context"]

/-- C10.  An option under any key outside the thirteen recognized ones and
`'context'` has no effect on the constructed `Context` and is not carried
into it — `make_context` never consults such keys, and the `Context` it
returns holds exactly the thirteen merged attributes.  In particular the
`'store'` option that `save`, `delete`, `select`, `fetch` and `__init__`
inject via `setdefault` is dropped, so the resulting `Context` defines no
store attribute for the subsequent `context.store` access to resolve. -/
theorem c10_unrecognized_options_ignored (o : Options) (k : String)
    (v : OptVal) (h : k ∉ recognized_option_keys) :
    make_context (setOpt o k v) = make_context o := by
  have hne : ∀ k2, k2 ∈ recognized_option_keys → setOpt o k v k2 = o k2 := by
    intro k2 hk2
    have hk : k2 ≠ k := fun e => h (e ▸ hk2)
    simp [setOpt, hk]
  have hd := hne "distinct" (by simp [recognized_option_keys])
  have hf := hne "fields" (by simp [recognized_option_keys])
  have hlo := hne "locale" (by simp [recognized_option_keys])
  have hli := hne "limit" (by simp [recognized_option_keys])
  have hns := hne "namespace" (by simp [recognized_option_keys])
  have hor := hne "order" (by simp [recognized_option_keys])
  have hpa := hne "page" (by simp [recognized_option_keys])
  have hps := hne "page_size" (by simp [recognized_option_keys])
  have hre := hne "returning" (by simp [recognized_option_keys])
  have hsc := hne "scope" (by simp [recognized_option_keys])
  have hst := hne "start" (by simp [recognized_option_keys])
  have htz := hne "timezone" (by simp [recognized_option_keys])
  have hwh := hne "where" (by simp [recognized_option_keys])
  have hcx := hne "context" (by simp [recognized_option_keys])
  simp only [make_context, getBaseContext, _merge_distinct, _merge_fields,
    _merge_locale, _merge_limit, _merge_namespace, _merge_order,
    _merge_page, _merge_page_size, _merge_returning, _merge_scope,
    _merge_start, _merge_timezone, _merge_query,
    hd, hf, hlo, hli, hns, hor, hpa, hps, hre, hsc, hst, htz, hwh, hcx]

theorem c10_unrecognized_options_ignored_witness :
    "store" ∉ recognized_option_keys ∧
    make_context (setOpt emptyOpts "store" .vStore) = make_context emptyOpts :=
  ⟨by decide,
   c10_unrecognized_options_ignored emptyOpts "store" .vStore (by decide)⟩
